import Mathlib

/-!
Shallow embedding of the looking-bot repository's core subsystems, and
verification of the frozen claims about them.

Embedded code:
* the rate-limited request gateway callAPI, in its two revisions
  (src/unnamed/part_004 lines 129-187 with bounded retries, exponential
  backoff and quota short-circuit; src/main.mjs lines 56-94 with unbounded
  retries and linear capped backoff);
* the timeout-status pipeline getTimeoutRemaining / sort / render
  (src/unnamed/part_004 lines 360-483);
* the status-surface reconciler with persisted message id
  (src/unnamed/part_004 lines 24-48, 393-408, 410-526);
* the classifier front-end checkTextContent with its keyword fallback
  (src/unnamed/part_004 lines 106-121, 213-324).

Time is modelled by an explicit millisecond clock threaded through the
gateway state: awaiting a timer of t ms advances the clock by t, and the
instant an attempt is dispatched is the clock value when the source sets
lastRequestTime.  External call attempts are modelled by their observable
outcome (success, or failure with the thrown error message) plus the time
the attempt consumed.
-/

namespace LookingBot

/-! ### JavaScript string primitives -/

/-- Does hay start with needle? -/
def startsWithChars (hay needle : List Char) : Bool :=
  decide (hay.take needle.length = needle)

/-- Is needle a contiguous substring of hay? -/
def infixAt : List Char → List Char → Bool
  | [], needle => needle.isEmpty
  | h :: t, needle => startsWithChars (h :: t) needle || infixAt t needle

/-- Model of JavaScript string.includes: substring containment. -/
def jsIncludes (s sub : String) : Bool :=
  infixAt s.data sub.data

/-- Model of JavaScript string.toLowerCase (ASCII letters; the Japanese
keywords involved are unaffected by case mapping). -/
def jsToLower (s : String) : String :=
  String.mk (s.data.map Char.toLower)

/-! ### Request gateway: timed state

The source serializes all calls through a promise chain (requestQueue) and
keeps the globals lastRequestTime / MIN_REQUEST_INTERVAL.  GwState carries
the current clock and that global. -/

/-- part_004 line 125. -/
def MIN_REQUEST_INTERVAL : Nat := 1000

/-- main.mjs line 52 (the same global in the main.mjs revision). -/
def MAIN_MIN_REQUEST_INTERVAL : Nat := 5000

structure GwState where
  clock : Nat
  lastRequestTime : Nat
deriving Repr, DecidableEq

/-- Awaiting setTimeout(ms): the clock advances by ms. -/
def waitFor (s : GwState) (ms : Nat) : GwState :=
  { s with clock := s.clock + ms }

/-- part_004 lines 138-142 / main.mjs lines 65-71: before dispatching, wait
until at least minI ms have elapsed since lastRequestTime. -/
def interAttemptWait (minI : Nat) (s : GwState) : GwState :=
  let diff := s.clock - s.lastRequestTime
  if diff < minI then waitFor s (minI - diff) else s

/-- One attempt of the submitted apiFunc: it either succeeds or throws an
error with a message, after running for dur ms. -/
inductive AttemptOutcome where
  | success (dur : Nat)
  | failure (msg : String) (dur : Nat)
deriving Repr, DecidableEq

def AttemptOutcome.isFailure : AttemptOutcome → Bool
  | .success _ => false
  | .failure _ _ => true

inductive CallResult where
  | resolved
  | rejectedRateLimitPersistent
  | rejectedQuota
  | rejectedError
  | rejectedExhausted
  | pending
deriving Repr, DecidableEq

/-- Observable trace of processing one CallTask: the instants at which
attempts were dispatched (lastRequestTime assignments), the delays awaited
between a failed attempt and the following retry, the final outcome of the
task's promise, and the gateway state afterwards. -/
structure CallTrace where
  dispatches : List Nat
  retryWaits : List Nat
  result : CallResult
  final : GwState
deriving Repr, DecidableEq

/-- part_004 line 161: msg.includes("429") || msg.toLowerCase().includes("too many requests"). -/
def isRateLimit429 (msg : String) : Bool :=
  jsIncludes msg "429" || jsIncludes (jsToLower msg) "too many requests"

/-- part_004 line 172: msg.toLowerCase().includes("quota") || ...("quotaexceeded"). -/
def isQuotaMsg (msg : String) : Bool :=
  jsIncludes (jsToLower msg) "quota" || jsIncludes (jsToLower msg) "quotaexceeded"

/-- part_004 line 132. -/
def maxRetries : Nat := 5

/-- part_004 lines 129-187: the retry loop of callAPI.  The outcome list
supplies the result of each attempted apiFunc invocation; a run that
exhausts the list while still willing to retry is reported as pending. -/
def callAPIv4Loop : List AttemptOutcome → GwState → Nat → Nat → CallTrace
  | [], s, retries, _ =>
    if retries < maxRetries then ⟨[], [], .pending, s⟩
    else ⟨[], [], .rejectedExhausted, s⟩
  | .success d :: _, s, retries, _ =>
    if retries < maxRetries then
      let s1 := interAttemptWait MIN_REQUEST_INTERVAL s
      let t := s1.clock
      ⟨[t], [], .resolved, waitFor { s1 with lastRequestTime := t } d⟩
    else ⟨[], [], .rejectedExhausted, s⟩
  | .failure msg d :: rest, s, retries, backoff =>
    if retries < maxRetries then
      let s1 := interAttemptWait MIN_REQUEST_INTERVAL s
      let t := s1.clock
      let s2 := waitFor { s1 with lastRequestTime := t } d
      let retries1 := retries + 1
      if isRateLimit429 msg then
        let s3 := waitFor s2 backoff
        let backoff1 := min (backoff * 2) 30000
        if 3 ≤ retries1 then
          ⟨[t], [backoff], .rejectedRateLimitPersistent, s3⟩
        else
          let tr := callAPIv4Loop rest s3 retries1 backoff1
          ⟨t :: tr.dispatches, backoff :: tr.retryWaits, tr.result, tr.final⟩
      else if isQuotaMsg msg then
        ⟨[t], [], .rejectedQuota, s2⟩
      else if maxRetries ≤ retries1 then
        ⟨[t], [], .rejectedError, s2⟩
      else
        let tr := callAPIv4Loop rest (waitFor s2 1000) retries1 backoff
        ⟨t :: tr.dispatches, 1000 :: tr.retryWaits, tr.result, tr.final⟩
    else ⟨[], [], .rejectedExhausted, s⟩

/-- callAPI of part_004: the loop entered with retries = 0, backoff = 1000. -/
def callAPIv4 (s : GwState) (outs : List AttemptOutcome) : CallTrace :=
  callAPIv4Loop outs s 0 1000

/-- main.mjs line 79: err.message.includes('429') || ...('Resource exhausted'). -/
def isMainBackoffMsg (msg : String) : Bool :=
  jsIncludes msg "429" || jsIncludes msg "Resource exhausted"

/-- main.mjs lines 56-94: the unbounded retry loop of callAPI in the
main.mjs revision.  attempt is incremented at the top of each iteration;
a 429-class failure waits min(5000 * attempt, 30000) ms, any other failure
waits 5000 ms, and the loop never rejects. -/
def callAPImainLoop : List AttemptOutcome → GwState → Nat → CallTrace
  | [], s, _ => ⟨[], [], .pending, s⟩
  | .success d :: _, s, _ =>
    let s1 := interAttemptWait MAIN_MIN_REQUEST_INTERVAL s
    let t := s1.clock
    ⟨[t], [], .resolved, waitFor { s1 with lastRequestTime := t } d⟩
  | .failure msg d :: rest, s, attempt =>
    let attempt1 := attempt + 1
    let s1 := interAttemptWait MAIN_MIN_REQUEST_INTERVAL s
    let t := s1.clock
    let s2 := waitFor { s1 with lastRequestTime := t } d
    let w := if isMainBackoffMsg msg then min (5000 * attempt1) 30000 else 5000
    let tr := callAPImainLoop rest (waitFor s2 w) attempt1
    ⟨t :: tr.dispatches, w :: tr.retryWaits, tr.result, tr.final⟩

def callAPImain (s : GwState) (outs : List AttemptOutcome) : CallTrace :=
  callAPImainLoop outs s 0

/-- The promise chain requestQueue (part_004 line 131): submitted tasks run
one after another, each starting from the gateway state the previous one
left behind.  Returns the final state and all dispatch instants in order. -/
def processQueue : List (List AttemptOutcome) → GwState → GwState × List Nat
  | [], s => (s, [])
  | task :: ts, s =>
    let tr := callAPIv4Loop task s 0 1000
    let rec1 := processQueue ts tr.final
    (rec1.1, tr.dispatches ++ rec1.2)

/-- The same serializer in the main.mjs revision. -/
def processQueueMain : List (List AttemptOutcome) → GwState → GwState × List Nat
  | [], s => (s, [])
  | task :: ts, s =>
    let tr := callAPImainLoop task s 0
    let rec1 := processQueueMain ts tr.final
    (rec1.1, tr.dispatches ++ rec1.2)

/-! ### Timeout list and rendering (part_004 lines 360-483) -/

/-- A guild member as far as the timeout display is concerned: the user tag
and the optional communicationDisabledUntilTimestamp (ms since epoch). -/
structure Member where
  tag : String
  communicationDisabledUntilTimestamp : Option Int
deriving Repr, DecidableEq

/-- part_004 lines 360-365: remaining timeout of a member in whole seconds,
Math.ceil((end - now) / 1000); null unless strictly positive.  now is the
current clock in ms.  Integer ceiling division by 1000 is (x + 999) / 1000
(Int division is euclidean, i.e. floor for a positive divisor). -/
def getTimeoutRemaining (now : Int) (m : Member) : Option Int :=
  if 0 < (m.communicationDisabledUntilTimestamp.getD 0 - now + 999) / 1000
  then some ((m.communicationDisabledUntilTimestamp.getD 0 - now + 999) / 1000)
  else none

structure TimeoutEntry where
  member : Member
  remain : Int
deriving Repr, DecidableEq

/-- The comparator (a, b) => b.remain - a.remain of part_004 line 467 sorts
so that the larger remain comes first; JavaScript sort is stable. -/
def byRemainDesc (a b : TimeoutEntry) : Prop := b.remain ≤ a.remain

instance : DecidableRel byRemainDesc := fun a b => Int.decLe b.remain a.remain

instance : IsTotal TimeoutEntry byRemainDesc := ⟨fun a b => le_total b.remain a.remain⟩

instance : IsTrans TimeoutEntry byRemainDesc :=
  ⟨fun _ _ _ hab hbc => le_trans hbc hab⟩

/-- part_004 lines 464-467: map members to their remaining timeout, drop the
null ones, sort by remaining time descending (stable sort). -/
def timeoutUsers (now : Int) (members : List Member) : List TimeoutEntry :=
  List.insertionSort byRemainDesc
    (members.filterMap fun m => (getTimeoutRemaining now m).map fun r => ⟨m, r⟩)

/-- part_004 lines 370-378. -/
def formatTime (seconds : Nat) : String :=
  let h := seconds / 3600
  let m := (seconds % 3600) / 60
  let s := seconds % 60
  if 0 < h then toString h ++ "時間" ++ toString m ++ "分" ++ toString s ++ "秒"
  else if 0 < m then toString m ++ "分" ++ toString s ++ "秒"
  else toString s ++ "秒"

/-- JavaScript string.repeat. -/
def repeatStr (s : String) (n : Nat) : String :=
  String.join (List.replicate n s)

/-- part_004 lines 477-480: one list line (index i counted from 0). -/
def renderEntryLine (i : Nat) (u : TimeoutEntry) : String :=
  let bar := repeatStr "█" (max 1 (u.remain.toNat / 60))
  toString (i + 1) ++ ". **" ++ u.member.tag ++ "**\n   残り: "
    ++ formatTime u.remain.toNat ++ " " ++ bar

/-- part_004 lines 469-483: the full rendered status text; now is the clock
in ms, the Discord timestamp is Math.floor(now / 1000). -/
def renderText (now : Int) (users : List TimeoutEntry) : String :=
  let currentTimestamp := now / 1000
  if users.length = 0 then
    "✅ **現在タイムアウト中のユーザーはいません**\n\n最終更新: <t:"
      ++ toString currentTimestamp ++ ":T>"
  else
    "⏳ **タイムアウト中のユーザー一覧** (" ++ toString users.length ++ "人)\n\n"
      ++ String.intercalate "\n\n" (users.enum.map fun p => renderEntryLine p.1 p.2)
      ++ "\n\n最終更新: <t:" ++ toString currentTimestamp ++ ":T>"

/-- One reconciler tick computes the text for the current instant from the
members cache. -/
def renderTick (now : Int) (members : List Member) : String :=
  renderText now (timeoutUsers now members)

/-! ### Keyword filter and classifier front-end (part_004 lines 106-121, 213-324) -/

/-- part_004 lines 106-111. -/
def BAD_KEYWORDS : List String :=
  ["死ね", "しね", "殺す", "ころす", "消えろ", "きえろ",
   "クズ", "くず", "ゴミ", "ごみ", "カス", "かす",
   "うざい", "ウザイ", "きもい", "キモイ", "気持ち悪い",
   "バカ", "ばか", "馬鹿", "アホ", "あほ", "阿呆"]

structure Verdict where
  isMalicious : Bool
  reason : String
deriving Repr, DecidableEq

/-- part_004 lines 113-121: first matching keyword wins (lowerText is
jsToLower text). -/
def simpleKeywordCheck (text : String) : Verdict :=
  match BAD_KEYWORDS.find? (fun keyword => jsIncludes (jsToLower text) keyword) with
  | some keyword => ⟨true, "禁止ワード「" ++ keyword ++ "」を検出"⟩
  | none => ⟨false, "禁止ワードなし"⟩

/-- Outcome of the gateway call made by checkTextContent: either the
classifier's response text, or the rejection (error code and message). -/
inductive ClassifierOutcome where
  | ok (responseText : String)
  | err (code : Option Nat) (msg : String)
deriving Repr, DecidableEq

/-- Chars of hay after the first occurrence of pat, if any. -/
def charsAfterFirst : List Char → List Char → Option (List Char)
  | [], pat => if pat.isEmpty then some [] else none
  | h :: t, pat =>
    if startsWithChars (h :: t) pat then some ((h :: t).drop pat.length)
    else charsAfterFirst t pat

/-- Model of the reason extraction of part_004 lines 285-289: the regex
match /理由:\s*(.+)/ takes, after the first 理由:, the rest of that line
with leading whitespace stripped; then trim and substring(0, 100). -/
def extractReason (rep : String) : String :=
  match charsAfterFirst rep.data "理由:".data with
  | none => "判定理由不明"
  | some cs =>
    let line := (cs.dropWhile Char.isWhitespace).takeWhile (fun c => c ≠ '\n')
    if line.isEmpty then "判定理由不明"
    else (String.mk line).trim.take 100

/-- Result of checkTextContent together with the process-wide flag: the
function's side effect on aiCheckEnabled (part_004 line 316) is made
explicit in the returned state. -/
structure CheckOutcome where
  aiCheckEnabled : Bool
  verdict : Verdict
  skipped : Bool
deriving Repr, DecidableEq

/-- part_004 line 315. -/
def isDegradedErr (code : Option Nat) (msg : String) : Bool :=
  code == some 429 || jsIncludes (jsToLower msg) "rate limit"
    || jsIncludes (jsToLower msg) "quota"

/-- part_004 lines 213-324: checkTextContent.  aiEnabled is the global
aiCheckEnabled on entry, onCooldown tells whether the per-user cooldown of
lines 232-238 is active (with remainingCooldown seconds left), call is the
outcome of the gateway call, text the message under scrutiny. -/
def checkTextContent (aiEnabled : Bool) (onCooldown : Bool)
    (remainingCooldown : Nat) (call : ClassifierOutcome) (text : String) :
    CheckOutcome :=
  if aiEnabled = false then
    ⟨false, simpleKeywordCheck text, false⟩
  else if onCooldown then
    ⟨true, ⟨false, "クールダウン中（" ++ toString remainingCooldown ++ "秒）"⟩, true⟩
  else
    match call with
    | .ok rep => ⟨true, ⟨jsIncludes rep "判定: 悪質", extractReason rep⟩, false⟩
    | .err code msg =>
      if isDegradedErr code msg then ⟨false, simpleKeywordCheck text, false⟩
      else ⟨true, simpleKeywordCheck text, false⟩

/-! ### Status-surface reconciler (part_004 lines 24-48, 393-408, 410-526)

The Discord channel is modelled as an association list from message id to
current content; timeoutStatus.json as the persisted optional id; the
in-memory timeoutStatusMessage as an optional id plus its cached content. -/

abbrev Platform := List (Nat × String)

/-- ch.messages.fetch(id): the content of message id if it still exists. -/
def fetchMsg (p : Platform) (id : Nat) : Option String :=
  (p.find? fun x => x.1 == id).map Prod.snd

/-- message.edit(text) on a message that exists. -/
def editPlatform (p : Platform) (id : Nat) (text : String) : Platform :=
  p.map fun x => if x.1 == id then (x.1, text) else x

structure ReconState where
  platform : Platform
  nextId : Nat
  persisted : Option Nat
  mem : Option Nat
  memContent : String
  edits : Nat
deriving Repr, DecidableEq

/-- part_004 line 405. -/
def INITIAL_STATUS_TEXT : String := "⏳ **Timeout 監視を開始します...**"

/-- part_004 lines 405-407: ch.send of the initial text followed by
saveStatusMessageId (lines 24-30). -/
def createStatusMessage (s : ReconState) : ReconState × Nat × String :=
  let id := s.nextId
  ({ s with
      platform := s.platform ++ [(id, INITIAL_STATUS_TEXT)]
      nextId := id + 1
      persisted := some id }, id, INITIAL_STATUS_TEXT)

/-- part_004 lines 393-408: resume from the persisted id when the message
still exists; otherwise clearStatusMessageId (lines 42-48) and create a
fresh message, persisting the new id. -/
def ensureTimeoutStatusMessage (s : ReconState) : ReconState × Nat × String :=
  match s.persisted with
  | some savedId =>
    match fetchMsg s.platform savedId with
    | some c => (s, savedId, c)
    | none => createStatusMessage { s with persisted := none }
  | none => createStatusMessage s

/-- One tick of the interval of part_004 lines 436-521, for a given rendered
text: recreate the surface if the in-memory message is null (lines 485-488),
then edit only when the content differs (line 490); an edit that fails with
Unknown Message clears both the in-memory message and the persisted id
(lines 504-506).  edits counts issued edit calls. -/
def tick (s : ReconState) (text : String) : ReconState :=
  let s0 :=
    match s.mem with
    | some _ => s
    | none =>
      let r := ensureTimeoutStatusMessage s
      { r.1 with mem := some r.2.1, memContent := r.2.2 }
  match s0.mem with
  | none => s0
  | some id =>
    if s0.memContent = text then s0
    else
      let s1 := { s0 with edits := s0.edits + 1 }
      if (fetchMsg s1.platform id).isSome then
        { s1 with platform := editPlatform s1.platform id text, memContent := text }
      else
        { s1 with mem := none, persisted := none }

/-- A process restart: the in-memory variables are lost, the persisted file
and the channel survive. -/
def restartProcess (s : ReconState) : ReconState :=
  { s with mem := none, memContent := "" }

/-! ### Helper lemmas -/

theorem getTimeoutRemaining_pos {now : Int} {m : Member} {r : Int}
    (h : getTimeoutRemaining now m = some r) : 0 < r := by
  unfold getTimeoutRemaining at h
  split at h
  · have := Option.some.inj h
    omega
  · exact absurd h (by simp)

theorem fetchMsg_eq_none_iff {p : Platform} {id : Nat} :
    fetchMsg p id = none ↔ ∀ x ∈ p, (x.1 == id) = false := by
  unfold fetchMsg
  rw [Option.map_eq_none', List.find?_eq_none]
  simp

theorem fetchMsg_append {p q : Platform} {id : Nat} (h : fetchMsg p id = none) :
    fetchMsg (p ++ q) id = fetchMsg q id := by
  unfold fetchMsg at *
  rw [List.find?_append, Option.map_eq_none'.mp h, Option.none_or]

theorem fetchMsg_append_single {p : Platform} {id : Nat} {c : String}
    (h : fetchMsg p id = none) :
    fetchMsg (p ++ [(id, c)]) id = some c := by
  rw [fetchMsg_append h]
  simp [fetchMsg]

theorem editPlatform_id_of_none {p : Platform} {id : Nat} {t : String}
    (h : fetchMsg p id = none) : editPlatform p id t = p := by
  have hall := fetchMsg_eq_none_iff.mp h
  unfold editPlatform
  conv_rhs => rw [← List.map_id p]
  exact List.map_congr_left fun x hx => by simp [hall x hx]

theorem editPlatform_append_single {p : Platform} {id : Nat} {c t : String}
    (h : fetchMsg p id = none) :
    editPlatform (p ++ [(id, c)]) id t = p ++ [(id, t)] := by
  unfold editPlatform
  rw [List.map_append]
  have h1 := editPlatform_id_of_none (t := t) h
  unfold editPlatform at h1
  rw [h1]
  simp

theorem interAttemptWait_clock_ge (minI : Nat) (s : GwState)
    (h : s.lastRequestTime ≤ s.clock) :
    s.lastRequestTime + minI ≤ (interAttemptWait minI s).clock := by
  simp only [interAttemptWait, waitFor]
  split
  · show s.lastRequestTime + minI ≤ s.clock + (minI - (s.clock - s.lastRequestTime))
    omega
  · omega

theorem interAttemptWait_last (minI : Nat) (s : GwState) :
    (interAttemptWait minI s).lastRequestTime = s.lastRequestTime := by
  simp only [interAttemptWait, waitFor]
  split <;> rfl

/-- Timing invariant of the part_004 retry loop: every dispatch instant is
at least MIN_REQUEST_INTERVAL after the previous lastRequestTime, the final
lastRequestTime is the last dispatch instant, and it never exceeds the
clock. -/
theorem callAPIv4Loop_timing (outs : List AttemptOutcome) :
    ∀ (s : GwState) (r b : Nat), s.lastRequestTime ≤ s.clock →
    List.Chain (fun x y => x + MIN_REQUEST_INTERVAL ≤ y) s.lastRequestTime
      (callAPIv4Loop outs s r b).dispatches ∧
    (callAPIv4Loop outs s r b).final.lastRequestTime =
      (callAPIv4Loop outs s r b).dispatches.getLastD s.lastRequestTime ∧
    (callAPIv4Loop outs s r b).final.lastRequestTime ≤
      (callAPIv4Loop outs s r b).final.clock := by
  induction outs with
  | nil =>
    intro s r b h
    simp only [callAPIv4Loop]
    split <;> exact ⟨List.Chain.nil, rfl, h⟩
  | cons o rest ih =>
    intro s r b h
    cases o with
    | success d =>
      simp only [callAPIv4Loop]
      split
      · refine ⟨List.Chain.cons (interAttemptWait_clock_ge _ s h) List.Chain.nil, rfl, ?_⟩
        simp [waitFor] <;> omega
      · exact ⟨List.Chain.nil, rfl, h⟩
    | failure msg d =>
      simp only [callAPIv4Loop]
      split
      · split
        · split
          · refine ⟨List.Chain.cons (interAttemptWait_clock_ge _ s h) List.Chain.nil,
              rfl, ?_⟩
            simp [waitFor] <;> omega
          · have hrec := ih (waitFor (waitFor { interAttemptWait MIN_REQUEST_INTERVAL s with
              lastRequestTime := (interAttemptWait MIN_REQUEST_INTERVAL s).clock } d) b)
              (r + 1) (min (b * 2) 30000) (by simp [waitFor] <;> omega)
            refine ⟨?_, ?_, hrec.2.2⟩
            · refine List.Chain.cons (interAttemptWait_clock_ge _ s h) ?_
              simpa [waitFor] using hrec.1
            · simp only [List.getLastD_cons]
              simpa [waitFor] using hrec.2.1
        · split
          · refine ⟨List.Chain.cons (interAttemptWait_clock_ge _ s h) List.Chain.nil,
              rfl, ?_⟩
            simp [waitFor] <;> omega
          · split
            · refine ⟨List.Chain.cons (interAttemptWait_clock_ge _ s h) List.Chain.nil,
                rfl, ?_⟩
              simp [waitFor] <;> omega
            · have hrec := ih (waitFor (waitFor { interAttemptWait MIN_REQUEST_INTERVAL s with
                lastRequestTime := (interAttemptWait MIN_REQUEST_INTERVAL s).clock } d) 1000)
                (r + 1) b (by simp [waitFor] <;> omega)
              refine ⟨?_, ?_, hrec.2.2⟩
              · refine List.Chain.cons (interAttemptWait_clock_ge _ s h) ?_
                simpa [waitFor] using hrec.1
              · simp only [List.getLastD_cons]
                simpa [waitFor] using hrec.2.1
      · exact ⟨List.Chain.nil, rfl, h⟩

theorem chain_append_getLastD {R : Nat → Nat → Prop} :
    ∀ (l1 : List Nat) (a : Nat) (l2 : List Nat),
    List.Chain R a l1 → List.Chain R (l1.getLastD a) l2 → List.Chain R a (l1 ++ l2)
  | [], _, _, _, h2 => h2
  | x :: xs, a, l2, h1, h2 => by
    cases h1 with
    | cons hax hxs =>
      refine List.Chain.cons hax (chain_append_getLastD xs x l2 hxs ?_)
      rwa [List.getLastD_cons] at h2

theorem getLastD_append_eq {α : Type} :
    ∀ (l1 l2 : List α) (a : α), (l1 ++ l2).getLastD a = l2.getLastD (l1.getLastD a)
  | [], _, _ => rfl
  | x :: xs, l2, a => by
    rw [List.cons_append, List.getLastD_cons, List.getLastD_cons]
    exact getLastD_append_eq xs l2 x

theorem chain'_of_chain {R : Nat → Nat → Prop} :
    ∀ {l : List Nat} {a : Nat}, List.Chain R a l → List.Chain' R l
  | [], _, _ => trivial
  | _ :: _, _, h => by
    cases h with
    | cons _ hb => exact hb

/-- Timing invariant of the whole part_004 promise chain. -/
theorem processQueue_timing (tasks : List (List AttemptOutcome)) :
    ∀ s : GwState, s.lastRequestTime ≤ s.clock →
    List.Chain (fun x y => x + MIN_REQUEST_INTERVAL ≤ y) s.lastRequestTime
      (processQueue tasks s).2 ∧
    (processQueue tasks s).1.lastRequestTime =
      (processQueue tasks s).2.getLastD s.lastRequestTime ∧
    (processQueue tasks s).1.lastRequestTime ≤ (processQueue tasks s).1.clock := by
  induction tasks with
  | nil => exact fun s h => ⟨List.Chain.nil, rfl, h⟩
  | cons task ts ih =>
    intro s h
    have h1 := callAPIv4Loop_timing task s 0 1000 h
    have h2 := ih (callAPIv4Loop task s 0 1000).final h1.2.2
    simp only [processQueue]
    refine ⟨?_, ?_, h2.2.2⟩
    · refine chain_append_getLastD _ _ _ h1.1 ?_
      rw [← h1.2.1]
      exact h2.1
    · rw [getLastD_append_eq, ← h1.2.1]
      exact h2.2.1

/-- Timing invariant of the main.mjs retry loop (interval 5000 ms). -/
theorem callAPImainLoop_timing (outs : List AttemptOutcome) :
    ∀ (s : GwState) (a : Nat), s.lastRequestTime ≤ s.clock →
    List.Chain (fun x y => x + MAIN_MIN_REQUEST_INTERVAL ≤ y) s.lastRequestTime
      (callAPImainLoop outs s a).dispatches ∧
    (callAPImainLoop outs s a).final.lastRequestTime =
      (callAPImainLoop outs s a).dispatches.getLastD s.lastRequestTime ∧
    (callAPImainLoop outs s a).final.lastRequestTime ≤
      (callAPImainLoop outs s a).final.clock := by
  induction outs with
  | nil => exact fun s a h => ⟨List.Chain.nil, rfl, h⟩
  | cons o rest ih =>
    intro s a h
    cases o with
    | success d =>
      simp only [callAPImainLoop]
      refine ⟨List.Chain.cons (interAttemptWait_clock_ge _ s h) List.Chain.nil, rfl, ?_⟩
      simp [waitFor] <;> omega
    | failure msg d =>
      simp only [callAPImainLoop]
      have hrec := ih (waitFor (waitFor { interAttemptWait MAIN_MIN_REQUEST_INTERVAL s with
        lastRequestTime := (interAttemptWait MAIN_MIN_REQUEST_INTERVAL s).clock } d)
        (if isMainBackoffMsg msg then min (5000 * (a + 1)) 30000 else 5000))
        (a + 1) (by simp [waitFor] <;> omega)
      refine ⟨?_, ?_, hrec.2.2⟩
      · refine List.Chain.cons (interAttemptWait_clock_ge _ s h) ?_
        simpa [waitFor] using hrec.1
      · simp only [List.getLastD_cons]
        simpa [waitFor] using hrec.2.1

/-- Timing invariant of the main.mjs promise chain. -/
theorem processQueueMain_timing (tasks : List (List AttemptOutcome)) :
    ∀ s : GwState, s.lastRequestTime ≤ s.clock →
    List.Chain (fun x y => x + MAIN_MIN_REQUEST_INTERVAL ≤ y) s.lastRequestTime
      (processQueueMain tasks s).2 ∧
    (processQueueMain tasks s).1.lastRequestTime =
      (processQueueMain tasks s).2.getLastD s.lastRequestTime ∧
    (processQueueMain tasks s).1.lastRequestTime ≤ (processQueueMain tasks s).1.clock := by
  induction tasks with
  | nil => exact fun s h => ⟨List.Chain.nil, rfl, h⟩
  | cons task ts ih =>
    intro s h
    have h1 := callAPImainLoop_timing task s 0 h
    have h2 := ih (callAPImainLoop task s 0).final h1.2.2
    simp only [processQueueMain]
    refine ⟨?_, ?_, h2.2.2⟩
    · refine chain_append_getLastD _ _ _ h1.1 ?_
      rw [← h1.2.1]
      exact h2.1
    · rw [getLastD_append_eq, ← h1.2.1]
      exact h2.2.1

theorem processQueue_allSuccess_length :
    ∀ (ds : List Nat) (s : GwState),
    (processQueue (ds.map fun d => [AttemptOutcome.success d]) s).2.length = ds.length := by
  intro ds
  induction ds with
  | nil => intro s; rfl
  | cons d rest ih =>
    intro s
    simp only [List.map_cons, processQueue, callAPIv4Loop]
    simp [ih, maxRetries]

theorem processQueueMain_allSuccess_length :
    ∀ (ds : List Nat) (s : GwState),
    (processQueueMain (ds.map fun d => [AttemptOutcome.success d]) s).2.length = ds.length := by
  intro ds
  induction ds with
  | nil => intro s; rfl
  | cons d rest ih =>
    intro s
    simp only [List.map_cons, processQueueMain, callAPImainLoop]
    simp [ih]

/-- An attempt outcome that is either a success or a failure whose message
contains 429 (a rate-limit error in both revisions' classification). -/
def is429Attempt : AttemptOutcome → Bool
  | .success _ => true
  | .failure m _ => jsIncludes m "429"

/-- Every element of outs is a failure. -/
def isFailureList : List AttemptOutcome → Prop :=
  fun outs => ∀ o ∈ outs, o.isFailure = true

theorem chain_le_of_forall {l : List Nat} {b : Nat}
    (hall : ∀ w ∈ l, b ≤ w) (h : List.Chain' (fun w1 w2 => w1 ≤ w2) l) :
    List.Chain (fun w1 w2 => w1 ≤ w2) b l := by
  cases l with
  | nil => exact List.Chain.nil
  | cons w ws => exact List.Chain.cons (hall w (by simp)) h

/-- Backoff invariant of the part_004 retry loop on runs whose failures are
all rate limits: every recorded retry wait is at least the current backoff
and at most the 30 s cap, and the waits are non-decreasing. -/
theorem callAPIv4Loop_waits (outs : List AttemptOutcome) :
    ∀ (s : GwState) (r b : Nat), b ≤ 30000 →
    (∀ o ∈ outs, is429Attempt o = true) →
    (∀ w ∈ (callAPIv4Loop outs s r b).retryWaits, b ≤ w ∧ w ≤ 30000) ∧
    List.Chain' (fun w1 w2 => w1 ≤ w2) (callAPIv4Loop outs s r b).retryWaits := by
  induction outs with
  | nil =>
    intro s r b hb hall
    simp only [callAPIv4Loop]
    split <;> simp
  | cons o rest ih =>
    intro s r b hb hall
    have ho := hall o (by simp)
    cases o with
    | success d =>
      simp only [callAPIv4Loop]
      split <;> simp
    | failure msg d =>
      have h429 : jsIncludes msg "429" = true := by simpa [is429Attempt] using ho
      have hrl : isRateLimit429 msg = true := by simp [isRateLimit429, h429]
      simp only [callAPIv4Loop, hrl, if_true]
      split
      · split
        · constructor
          · intro w hw
            simp only [List.mem_singleton] at hw
            subst hw
            exact ⟨le_refl _, hb⟩
          · simp
        · have hb1 : min (b * 2) 30000 ≤ 30000 := min_le_right _ _
          have hble : b ≤ min (b * 2) 30000 := le_min (by omega) hb
          have hall1 : ∀ o ∈ rest, is429Attempt o = true :=
            fun o ho => hall o (by simp [ho])
          constructor
          · intro w hw
            rcases List.mem_cons.mp hw with rfl | hw
            · exact ⟨le_refl _, hb⟩
            · have hx := (ih _ (r + 1) (min (b * 2) 30000) hb1 hall1).1 w hw
              exact ⟨le_trans hble hx.1, hx.2⟩
          · exact chain_le_of_forall
              (fun w hw =>
                le_trans hble ((ih _ (r + 1) (min (b * 2) 30000) hb1 hall1).1 w hw).1)
              (ih _ (r + 1) (min (b * 2) 30000) hb1 hall1).2
      · simp

set_option maxRecDepth 100000 in
/-- Backoff invariant of the main.mjs retry loop on all-rate-limited runs:
retry waits are non-decreasing, each at least min(5000 * attempt, 30000)
and at most the 30 s cap. -/
theorem callAPImainLoop_waits (outs : List AttemptOutcome) :
    ∀ (s : GwState) (a : Nat),
    (∀ o ∈ outs, is429Attempt o = true) →
    (∀ w ∈ (callAPImainLoop outs s a).retryWaits,
      min (5000 * (a + 1)) 30000 ≤ w ∧ w ≤ 30000) ∧
    List.Chain' (fun w1 w2 => w1 ≤ w2) (callAPImainLoop outs s a).retryWaits := by
  induction outs with
  | nil =>
    intro s a hall
    exact ⟨by simp [callAPImainLoop], by simp [callAPImainLoop]⟩
  | cons o rest ih =>
    intro s a hall
    have ho := hall o (by simp)
    cases o with
    | success d =>
      simp only [callAPImainLoop]
      exact ⟨by simp, by simp⟩
    | failure msg d =>
      have h429 : jsIncludes msg "429" = true := by simpa [is429Attempt] using ho
      have hbk : isMainBackoffMsg msg = true := by simp [isMainBackoffMsg, h429]
      simp only [callAPImainLoop, hbk, if_true]
      have hmono : min (5000 * (a + 1)) 30000 ≤ min (5000 * (a + 1 + 1)) 30000 :=
        min_le_min (by omega) (le_refl _)
      have hall1 : ∀ o ∈ rest, is429Attempt o = true :=
        fun o ho => hall o (by simp [ho])
      constructor
      · intro w hw
        simp only [List.mem_cons] at hw
        rcases hw with rfl | hw
        · exact ⟨le_refl _, min_le_right _ _⟩
        · have hx := (ih _ (a + 1) hall1).1 w hw
          exact ⟨le_trans hmono hx.1, hx.2⟩
      · exact chain_le_of_forall
          (fun w hw => le_trans hmono ((ih _ (a + 1) hall1).1 w hw).1)
          (ih _ (a + 1) hall1).2

/-- The main.mjs loop keeps retrying any sequence of failures: after any
finite number of failed attempts the task is neither resolved nor rejected,
it is still pending. -/
theorem callAPImainLoop_never_rejects (outs : List AttemptOutcome) :
    ∀ (s : GwState) (a : Nat), isFailureList outs →
    (callAPImainLoop outs s a).result = CallResult.pending := by
  induction outs with
  | nil => intro s a _; rfl
  | cons o rest ih =>
    intro s a hall
    have ho := hall o (by simp)
    cases o with
    | success d => simp [AttemptOutcome.isFailure] at ho
    | failure msg d =>
      simp only [callAPImainLoop]
      exact ih _ (a + 1) (fun o hmem => hall o (by simp [hmem]))

/-- The part_004 loop rejects a task after three rate-limited attempts. -/
theorem callAPIv4_three_rate_limits (m1 m2 m3 : String) (d1 d2 d3 : Nat) (s : GwState)
    (h1 : isRateLimit429 m1 = true) (h2 : isRateLimit429 m2 = true)
    (h3 : isRateLimit429 m3 = true) :
    (callAPIv4 s [.failure m1 d1, .failure m2 d2, .failure m3 d3]).result =
      CallResult.rejectedRateLimitPersistent := by
  simp [callAPIv4, callAPIv4Loop, h1, h2, h3, maxRetries]

/-- A tick that starts with no in-memory surface but a persisted id whose
message is still alive resumes that surface without creating a new one. -/
theorem tick_resume {s : ReconState} {id : Nat} {c : String}
    (hmem : s.mem = none) (hpers : s.persisted = some id)
    (hlive : fetchMsg s.platform id = some c) (text : String) :
    (tick s text).persisted = some id ∧ (tick s text).mem = some id ∧
    (tick s text).nextId = s.nextId := by
  by_cases heq : c = text
  · simp [tick, hmem, hpers, ensureTimeoutStatusMessage, hlive, heq]
  · simp [tick, hmem, hpers, ensureTimeoutStatusMessage, hlive, heq]

/-! ### The claims -/

/-- Claim C9: getTimeoutRemaining returns either a strictly positive number
of seconds, namely the ceiling of (expiry - now) / 1000, or null; it never
returns zero or a negative value, and a member with no restriction
timestamp always yields null.  The two inequalities are the defining
property of the ceiling of (expiry - now) / 1000. -/
theorem claim_C9_remaining_seconds (now : Nat) (m : Member) :
    (∀ r, getTimeoutRemaining (now : Int) m = some r →
      0 < r ∧
      1000 * (r - 1) < m.communicationDisabledUntilTimestamp.getD 0 - (now : Int) ∧
      m.communicationDisabledUntilTimestamp.getD 0 - (now : Int) ≤ 1000 * r) ∧
    (m.communicationDisabledUntilTimestamp = none →
      getTimeoutRemaining (now : Int) m = none) := by
  constructor
  · intro r h
    unfold getTimeoutRemaining at h
    split at h
    · have := Option.some.inj h
      refine ⟨?_, ?_, ?_⟩ <;> omega
    · exact absurd h (by simp)
  · intro hnone
    have hle : ¬ (0 < ((m.communicationDisabledUntilTimestamp.getD 0 : Int) - (now : Int) + 999) / 1000) := by
      rw [hnone]
      simp only [Option.getD_none]
      omega
    unfold getTimeoutRemaining
    exact if_neg hle

theorem claim_C9_witness :
    (0 : Int) < 5 ∧
    getTimeoutRemaining ((12345 : Nat) : Int) ⟨"Z", none⟩ = none :=
  ⟨((claim_C9_remaining_seconds 0 ⟨"A", some 5000⟩).1 5 (by decide)).1,
   (claim_C9_remaining_seconds 12345 ⟨"Z", none⟩).2 rfl⟩

/-- Claim C10: checkTextContent is total with respect to classifier failure:
if the AI check is disabled, or the gateway call fails with any error, the
returned verdict is the keyword-filter verdict of simpleKeywordCheck, which
flags the text as malicious exactly when the lowercased text contains one of
the BAD_KEYWORDS. -/
theorem claim_C10_keyword_fallback_total (text : String) (en cd : Bool)
    (rc : Nat) (call : ClassifierOutcome) (code : Option Nat) (msg : String) :
    (en = false → (checkTextContent en cd rc call text).verdict = simpleKeywordCheck text) ∧
    ((checkTextContent true false rc (.err code msg) text).verdict = simpleKeywordCheck text) ∧
    ((simpleKeywordCheck text).isMalicious = true ↔
      ∃ kw ∈ BAD_KEYWORDS, jsIncludes (jsToLower text) kw = true) := by
  refine ⟨?_, ?_, ?_⟩
  · intro hen
    subst hen
    simp [checkTextContent]
  · by_cases hdeg : isDegradedErr code msg = true <;>
      simp [checkTextContent, hdeg]
  · unfold simpleKeywordCheck
    cases hfind : BAD_KEYWORDS.find? (fun keyword => jsIncludes (jsToLower text) keyword) with
    | none =>
      constructor
      · intro h
        exact absurd h (by simp)
      · rintro ⟨kw, hkw, hinc⟩
        exact absurd hinc (by simpa using List.find?_eq_none.mp hfind kw hkw)
    | some kw =>
      exact ⟨fun _ => ⟨kw, List.mem_of_find?_eq_some hfind, List.find?_some hfind⟩,
        fun _ => rfl⟩

theorem claim_C10_witness :
    (checkTextContent false true 3 (.ok "判定: 安全") "死ね").verdict =
      simpleKeywordCheck "死ね" ∧
    (simpleKeywordCheck "死ね").isMalicious = true :=
  ⟨(claim_C10_keyword_fallback_total "死ね" false true 3 (.ok "判定: 安全")
      none "").1 rfl,
   (claim_C10_keyword_fallback_total "死ね" false true 3 (.ok "判定: 安全")
      none "").2.2.mpr ⟨"死ね", by decide, by decide⟩⟩

/-- Claim C4: a dispatch attempt failing with a quota-exhaustion error makes
the gateway fail the task immediately, with exactly the one dispatch that
failed and no retry; and checkTextContent turns the process-wide
aiCheckEnabled flag off on the quota error the gateway rejects with (code
403, message Quota exceeded), returning the keyword fallback verdict, as it
does for every caller once the flag is off. -/
theorem claim_C4_quota_fatal_degraded :
    (∀ (msg : String) (d : Nat) (rest : List AttemptOutcome) (s : GwState) (r b : Nat),
      r < maxRetries → isRateLimit429 msg = false → isQuotaMsg msg = true →
      (callAPIv4Loop (.failure msg d :: rest) s r b).dispatches.length = 1 ∧
      (callAPIv4Loop (.failure msg d :: rest) s r b).result = .rejectedQuota) ∧
    (∀ (text : String) (rc : Nat),
      (checkTextContent true false rc (.err (some 403) "Quota exceeded") text).aiCheckEnabled = false ∧
      (checkTextContent true false rc (.err (some 403) "Quota exceeded") text).verdict =
        simpleKeywordCheck text) ∧
    (∀ (text : String) (cd : Bool) (rc : Nat) (call : ClassifierOutcome),
      (checkTextContent false cd rc call text).verdict = simpleKeywordCheck text) := by
  refine ⟨?_, ?_, ?_⟩
  · intro msg d rest s r b hr hrl hq
    simp [callAPIv4Loop, hr, hrl, hq]
  · intro text rc
    have hdeg : isDegradedErr (some 403) "Quota exceeded" = true := by decide
    constructor <;> simp [checkTextContent, hdeg]
  · intro text cd rc call
    simp [checkTextContent]

theorem claim_C4_witness :
    (callAPIv4Loop [.failure "Quota exceeded" 50] ⟨0, 0⟩ 0 1000).dispatches.length = 1 ∧
    (callAPIv4Loop [.failure "Quota exceeded" 50] ⟨0, 0⟩ 0 1000).result = .rejectedQuota :=
  claim_C4_quota_fatal_degraded.1 "Quota exceeded" 50 [] ⟨0, 0⟩ 0 1000
    (by decide) (by decide) (by decide)

/-- Claim C7: when the in-memory surface exists and the freshly rendered
text equals the text last applied to it, a tick issues no edit call and
leaves the state untouched; an edit call is issued exactly when the rendered
text differs from the last-applied content. -/
theorem claim_C7_diff_skips_edit (s : ReconState) (text : String) :
    (s.mem.isSome = true → s.memContent = text → tick s text = s) ∧
    (s.mem.isSome = true → s.memContent ≠ text → (tick s text).edits = s.edits + 1) := by
  constructor
  · intro hsome heq
    cases hmem : s.mem with
    | none => rw [hmem] at hsome; exact absurd hsome (by simp)
    | some id => simp [tick, hmem, heq]
  · intro hsome hne
    cases hmem : s.mem with
    | none => rw [hmem] at hsome; exact absurd hsome (by simp)
    | some id =>
      simp only [tick, hmem]
      rw [if_neg hne]
      split <;> rfl

theorem claim_C7_witness :
    tick ⟨[(0, "a")], 1, some 0, some 0, "a", 0⟩ "a" = ⟨[(0, "a")], 1, some 0, some 0, "a", 0⟩ ∧
    (tick ⟨[(0, "a")], 1, some 0, some 0, "a", 0⟩ "b").edits = 1 :=
  ⟨(claim_C7_diff_skips_edit ⟨[(0, "a")], 1, some 0, some 0, "a", 0⟩ "a").1 rfl rfl,
   (claim_C7_diff_skips_edit ⟨[(0, "a")], 1, some 0, some 0, "a", 0⟩ "b").2 rfl (by decide)⟩

/-- Claim C8 as stated is false: the rendered text is not a function of the
restriction-record set alone, because it embeds the last-update timestamp;
the same (empty) record set rendered at 0 ms and at 1000 ms produces
different bytes. -/
theorem claim_C8_counterexample :
    renderText 0 [] ≠ renderText 1000 [] := by decide

/-- Claim C8 (amended): the render step is a pure, deterministic function of
the restriction-record set and the last-update instant (at second
granularity): two renders of the same record set whose instants fall in the
same whole second produce byte-identical text, and the empty set renders
the designated empty-state text carrying that timestamp. -/
theorem claim_C8_render_pure_of_set_and_instant :
    (∀ (n1 n2 : Int) (users : List TimeoutEntry), n1 / 1000 = n2 / 1000 →
      renderText n1 users = renderText n2 users) ∧
    (∀ now : Int, renderText now [] =
      "✅ **現在タイムアウト中のユーザーはいません**\n\n最終更新: <t:"
        ++ toString (now / 1000) ++ ":T>") := by
  constructor
  · intro n1 n2 users h
    simp only [renderText, h]
  · intro now
    rfl

theorem claim_C8_witness :
    renderText 0 [] = renderText 999 [] :=
  claim_C8_render_pure_of_set_and_instant.1 0 999 [] (by decide)

/-- Claim C2: the render pipeline excludes every account whose remaining
duration is zero or negative (every listed entry has strictly positive
remaining time, and every member with a positive remaining time is listed),
lists entries sorted by remaining duration descending with ties kept in
stable input order, and on the concrete scenario: remaining durations 5 s,
120 s, 30 s render in order 120, 30, 5, and once the 5 s account's
remaining duration reaches 0 the next tick omits it. -/
theorem claim_C2_sorted_filtered_list :
    (∀ (now : Int) (ms : List Member) (e : TimeoutEntry),
      e ∈ timeoutUsers now ms → 0 < e.remain) ∧
    (∀ (now : Int) (ms : List Member),
      List.Sorted byRemainDesc (timeoutUsers now ms)) ∧
    (∀ (now : Int) (ms : List Member) (m : Member) (r : Int), m ∈ ms →
      getTimeoutRemaining now m = some r →
      (⟨m, r⟩ : TimeoutEntry) ∈ timeoutUsers now ms) ∧
    (timeoutUsers 0 [⟨"A", some 5000⟩, ⟨"B", some 120000⟩, ⟨"C", some 30000⟩] =
      [⟨⟨"B", some 120000⟩, 120⟩, ⟨⟨"C", some 30000⟩, 30⟩, ⟨⟨"A", some 5000⟩, 5⟩]) ∧
    (timeoutUsers 5000 [⟨"A", some 5000⟩, ⟨"B", some 120000⟩, ⟨"C", some 30000⟩] =
      [⟨⟨"B", some 120000⟩, 115⟩, ⟨⟨"C", some 30000⟩, 25⟩]) ∧
    (timeoutUsers 0 [⟨"X", some 60000⟩, ⟨"Y", some 60000⟩] =
      [⟨⟨"X", some 60000⟩, 60⟩, ⟨⟨"Y", some 60000⟩, 60⟩]) := by
  refine ⟨?_, ?_, ?_, by decide, by decide, by decide⟩
  · intro now ms e he
    rw [timeoutUsers, List.mem_insertionSort, List.mem_filterMap] at he
    obtain ⟨m, _, hf⟩ := he
    cases hg : getTimeoutRemaining now m with
    | none => rw [hg] at hf; exact absurd hf (by simp)
    | some r =>
      rw [hg] at hf
      have : e = ⟨m, r⟩ := by simpa using hf.symm
      rw [this]
      exact getTimeoutRemaining_pos hg
  · intro now ms
    exact List.sorted_insertionSort byRemainDesc _
  · intro now ms m r hm hg
    rw [timeoutUsers, List.mem_insertionSort, List.mem_filterMap]
    exact ⟨m, hm, by rw [hg]; rfl⟩

/-- Claim C3: when an edit of the status surface fails because the message
no longer exists, the tick clears both the in-memory surface and the
persisted identifier; the next tick creates a new surface message (id
nextId) and persists its identifier, leaving the message holding the
rendered text; and a tick after a process restart resumes that same
identifier without creating another message (the persisted id and the
fresh-id counter are unchanged). -/
theorem claim_C3_surface_recovery (s : ReconState) (m : Nat) (t1 t2 t3 : String)
    (hmem : s.mem = some m)
    (hdead : fetchMsg s.platform m = none)
    (hfresh : fetchMsg s.platform s.nextId = none)
    (hdiff : s.memContent ≠ t1) :
    (tick s t1).persisted = none ∧ (tick s t1).mem = none ∧
    (tick (tick s t1) t2).persisted = some s.nextId ∧
    (tick (tick s t1) t2).mem = some s.nextId ∧
    fetchMsg (tick (tick s t1) t2).platform s.nextId = some t2 ∧
    (tick (restartProcess (tick (tick s t1) t2)) t3).persisted = some s.nextId ∧
    (tick (restartProcess (tick (tick s t1) t2)) t3).mem = some s.nextId ∧
    (tick (restartProcess (tick (tick s t1) t2)) t3).nextId =
      (tick (tick s t1) t2).nextId := by
  have h1 : tick s t1 =
      { s with edits := s.edits + 1, mem := none, persisted := none } := by
    simp [tick, hmem, hdiff, hdead]
  obtain ⟨hp2, hm2, hl2⟩ :
      (tick (tick s t1) t2).persisted = some s.nextId ∧
      (tick (tick s t1) t2).mem = some s.nextId ∧
      fetchMsg (tick (tick s t1) t2).platform s.nextId = some t2 := by
    by_cases ht2 : INITIAL_STATUS_TEXT = t2
    · have h2 : tick (tick s t1) t2 =
          { s with
              platform := s.platform ++ [(s.nextId, INITIAL_STATUS_TEXT)],
              nextId := s.nextId + 1,
              persisted := some s.nextId,
              mem := some s.nextId,
              memContent := INITIAL_STATUS_TEXT,
              edits := s.edits + 1 } := by
        rw [h1]
        simp [tick, ensureTimeoutStatusMessage, createStatusMessage, ht2]
      refine ⟨by rw [h2], by rw [h2], ?_⟩
      rw [h2]
      show fetchMsg (s.platform ++ [(s.nextId, INITIAL_STATUS_TEXT)]) s.nextId = some t2
      rw [← ht2]
      exact fetchMsg_append_single hfresh
    · have h2 : tick (tick s t1) t2 =
          { s with
              platform := s.platform ++ [(s.nextId, t2)],
              nextId := s.nextId + 1,
              persisted := some s.nextId,
              mem := some s.nextId,
              memContent := t2,
              edits := s.edits + 2 } := by
        rw [h1]
        have hfetchInit : fetchMsg
            (s.platform ++ [(s.nextId, INITIAL_STATUS_TEXT)]) s.nextId
            = some INITIAL_STATUS_TEXT := fetchMsg_append_single hfresh
        simp [tick, ensureTimeoutStatusMessage, createStatusMessage, ht2,
          hfetchInit, editPlatform_append_single hfresh]
      refine ⟨by rw [h2], by rw [h2], ?_⟩
      rw [h2]
      exact fetchMsg_append_single hfresh
  have hres := tick_resume
    (show (restartProcess (tick (tick s t1) t2)).mem = none from rfl)
    (show (restartProcess (tick (tick s t1) t2)).persisted = some s.nextId from hp2)
    (show fetchMsg (restartProcess (tick (tick s t1) t2)).platform s.nextId = some t2
      from hl2) t3
  exact ⟨by rw [h1], by rw [h1], hp2, hm2, hl2, hres.1, hres.2.1, hres.2.2⟩

theorem claim_C3_witness :
    (tick (tick ⟨[], 1, some 0, some 0, "a", 0⟩ "b") "c").persisted = some 1 ∧
    (tick (restartProcess (tick (tick ⟨[], 1, some 0, some 0, "a", 0⟩ "b") "c")) "d").mem
      = some 1 := by
  have h := claim_C3_surface_recovery ⟨[], 1, some 0, some 0, "a", 0⟩ 0 "b" "c" "d"
    rfl rfl rfl (by decide)
  exact ⟨h.2.2.1, h.2.2.2.2.2.2.1⟩

theorem claim_C2_witness :
    (0 : Int) < 120 ∧
    (⟨⟨"A", some 5000⟩, 5⟩ : TimeoutEntry) ∈
      timeoutUsers 0 [⟨"A", some 5000⟩, ⟨"B", some 120000⟩, ⟨"C", some 30000⟩] :=
  ⟨claim_C2_sorted_filtered_list.1 0
      [⟨"A", some 5000⟩, ⟨"B", some 120000⟩, ⟨"C", some 30000⟩]
      ⟨⟨"B", some 120000⟩, 120⟩ (by decide),
   claim_C2_sorted_filtered_list.2.2.1 0
      [⟨"A", some 5000⟩, ⟨"B", some 120000⟩, ⟨"C", some 30000⟩]
      ⟨"A", some 5000⟩ 5 (by decide) (by decide)⟩

/-- Claim C1: the gateway processes submitted tasks one at a time, in
submission order (the dispatch-instant trace is the in-order concatenation
of the per-task traces, produced by a single sequential consumer), and the
interval between the start instants of two consecutive dispatches is never
less than the configured minimum inter-call interval: MIN_REQUEST_INTERVAL
(1000 ms) in the part_004 revision, MAIN_MIN_REQUEST_INTERVAL (5000 ms) in
the main.mjs revision.  When every task succeeds on its first attempt,
exactly N calls are dispatched for N submissions. -/
theorem claim_C1_fifo_min_interval (c : Nat) (tasks : List (List AttemptOutcome))
    (ds : List Nat) :
    List.Chain' (fun x y => x + MIN_REQUEST_INTERVAL ≤ y)
      (processQueue tasks ⟨c, 0⟩).2 ∧
    List.Chain' (fun x y => x + MAIN_MIN_REQUEST_INTERVAL ≤ y)
      (processQueueMain tasks ⟨c, 0⟩).2 ∧
    (processQueue (ds.map fun d => [AttemptOutcome.success d]) ⟨c, 0⟩).2.length
      = ds.length ∧
    (processQueueMain (ds.map fun d => [AttemptOutcome.success d]) ⟨c, 0⟩).2.length
      = ds.length := by
  refine ⟨?_, ?_, processQueue_allSuccess_length ds ⟨c, 0⟩,
    processQueueMain_allSuccess_length ds ⟨c, 0⟩⟩
  · exact chain'_of_chain ((processQueue_timing tasks ⟨c, 0⟩ (Nat.zero_le c)).1)
  · exact chain'_of_chain ((processQueueMain_timing tasks ⟨c, 0⟩ (Nat.zero_le c)).1)

/-- Claim C5: on every run whose failed attempts are all rate-limit errors
(messages carrying 429), the delays the gateway waits before successive
retries are non-decreasing and never exceed the 30 s backoff cap — in both
the part_004 revision (exponential doubling) and the main.mjs revision
(linear growth). -/
theorem claim_C5_backoff_nondecreasing (outs : List AttemptOutcome) (s : GwState)
    (h429 : ∀ o ∈ outs, is429Attempt o = true) :
    (List.Chain' (fun w1 w2 => w1 ≤ w2) (callAPIv4 s outs).retryWaits ∧
      ∀ w ∈ (callAPIv4 s outs).retryWaits, w ≤ 30000) ∧
    (List.Chain' (fun w1 w2 => w1 ≤ w2) (callAPImain s outs).retryWaits ∧
      ∀ w ∈ (callAPImain s outs).retryWaits, w ≤ 30000) := by
  have h1 := callAPIv4Loop_waits outs s 0 1000 (by omega) h429
  have h2 := callAPImainLoop_waits outs s 0 h429
  exact ⟨⟨h1.2, fun w hw => (h1.1 w hw).2⟩, ⟨h2.2, fun w hw => (h2.1 w hw).2⟩⟩

theorem claim_C5_witness :
    List.Chain' (fun w1 w2 => w1 ≤ w2)
      (callAPIv4 ⟨0, 0⟩ [.failure "429" 0, .failure "429" 0, .success 0]).retryWaits ∧
    List.Chain' (fun w1 w2 => w1 ≤ w2)
      (callAPImain ⟨0, 0⟩ [.failure "429" 0, .failure "429" 0, .success 0]).retryWaits :=
  ⟨(claim_C5_backoff_nondecreasing [.failure "429" 0, .failure "429" 0, .success 0]
      ⟨0, 0⟩ (by decide)).1.1,
   (claim_C5_backoff_nondecreasing [.failure "429" 0, .failure "429" 0, .success 0]
      ⟨0, 0⟩ (by decide)).2.1⟩

/-- Claim C6 as stated is false for the part_004 revision: a task whose
three attempts all fail with rate-limit (429) errors is not retried
indefinitely — the gateway rejects it with the persistent-rate-limit error,
so the task is failed solely because of rate limiting. -/
theorem claim_C6_counterexample :
    (callAPIv4 ⟨0, 0⟩ [.failure "429" 0, .failure "429" 0, .failure "429" 0]).result =
      CallResult.rejectedRateLimitPersistent ∧
    (callAPIv4 ⟨0, 0⟩ [.failure "429" 0, .failure "429" 0, .failure "429" 0]).result ≠
      CallResult.resolved ∧
    (callAPIv4 ⟨0, 0⟩ [.failure "429" 0, .failure "429" 0, .failure "429" 0]).result ≠
      CallResult.pending := by
  decide

/-- Claim C6 (amended): in the main.mjs revision a task failing only with
rate-limit errors is never dropped or failed — after any number of failed
attempts it is still being retried; in the part_004 revision the same task
is retried with exponential backoff but deliberately rejected with a
persistent-rate-limit error (code 429) once three rate-limited attempts
have occurred, so that the caller can switch to the keyword fallback. -/
theorem claim_C6_rate_limit_retry_policy :
    (∀ (outs : List AttemptOutcome) (s : GwState) (a : Nat),
      isFailureList outs → (callAPImainLoop outs s a).result = CallResult.pending) ∧
    (∀ (m1 m2 m3 : String) (d1 d2 d3 : Nat) (s : GwState),
      isRateLimit429 m1 = true → isRateLimit429 m2 = true → isRateLimit429 m3 = true →
      (callAPIv4 s [.failure m1 d1, .failure m2 d2, .failure m3 d3]).result =
        CallResult.rejectedRateLimitPersistent) :=
  ⟨fun outs s a h => callAPImainLoop_never_rejects outs s a h,
   fun m1 m2 m3 d1 d2 d3 s h1 h2 h3 =>
     callAPIv4_three_rate_limits m1 m2 m3 d1 d2 d3 s h1 h2 h3⟩

theorem claim_C6_witness :
    (callAPImainLoop [.failure "429" 10, .failure "500" 20] ⟨0, 0⟩ 0).result =
      CallResult.pending ∧
    (callAPIv4 ⟨5, 3⟩ [.failure "HTTP 429" 1, .failure "too many requests, 429" 2,
      .failure "429" 3]).result = CallResult.rejectedRateLimitPersistent :=
  ⟨claim_C6_rate_limit_retry_policy.1 [.failure "429" 10, .failure "500" 20] ⟨0, 0⟩ 0
      (by unfold isFailureList; decide),
   claim_C6_rate_limit_retry_policy.2 "HTTP 429" "too many requests, 429" "429" 1 2 3
      ⟨5, 3⟩ (by decide) (by decide) (by decide)⟩

end LookingBot
